import Mathlib

/-!
Verification of the redis-cache service
(`apps/api/src/app/redis-cache/redis-cache.service.ts`).

The service is shallowly embedded: pure key derivation becomes pure Lean
functions (including a full SHA-256 over byte lists), and the stateful
cache client becomes explicit state passing over an association-list store
with fault-injection parameters for connectivity failures, iterator
failures and the health-check timer race.
-/

/-- A filter criterion, as in the `Filter` interface of
`@ghostfolio/common/interfaces`: an optional `id` and a `type` string. -/
structure Gf.Filter where
  id : Option String
  type : String
deriving DecidableEq

/-- One character of a JSON string literal, escaped as
`JSON.stringify` escapes it (quote, backslash, control characters). -/
def jsonEscapeChar (c : Char) : List Char :=
  if c = '"' then ['\\', '"']
  else if c = '\\' then ['\\', '\\']
  else if c.toNat = 8 then ['\\', 'b']
  else if c.toNat = 9 then ['\\', 't']
  else if c.toNat = 10 then ['\\', 'n']
  else if c.toNat = 12 then ['\\', 'f']
  else if c.toNat = 13 then ['\\', 'r']
  else if c.toNat < 32 then
    ['\\', 'u', '0', '0', Nat.digitChar (c.toNat / 16), Nat.digitChar (c.toNat % 16)]
  else [c]

/-- A JSON string literal: the escaped characters between double quotes. -/
def jsonQuoteString (s : String) : String :=
  "\"" ++ String.mk (s.data.foldr (fun c acc => jsonEscapeChar c ++ acc) []) ++ "\""

/-- `JSON.stringify` of one filter object: the `id` property is omitted
when absent, properties appear in insertion order (`id` then `type`). -/
def jsonFilterObject (f : Gf.Filter) : String :=
  match f.id with
  | some i =>
      "\x7b\"id\":" ++ jsonQuoteString i ++ ",\"type\":" ++ jsonQuoteString f.type ++ "\x7d"
  | none => "\x7b\"type\":" ++ jsonQuoteString f.type ++ "\x7d"

/-- `JSON.stringify(filters)`: the array of filter objects, in the order
supplied (no sorting or canonicalization). -/
def jsonStringifyFilters (fs : List Gf.Filter) : String :=
  "[" ++ String.intercalate "," (fs.map jsonFilterObject) ++ "]"

/-- UTF-8 encoding of one character, as a list of bytes. -/
def utf8EncodeChar (c : Char) : List Nat :=
  let n := c.toNat
  if n < 128 then [n]
  else if n < 2048 then [192 + n / 64, 128 + n % 64]
  else if n < 65536 then [224 + n / 4096, 128 + n / 64 % 64, 128 + n % 64]
  else [240 + n / 262144, 128 + n / 4096 % 64, 128 + n / 64 % 64, 128 + n % 64]

/-- UTF-8 encoding of a string, as a list of bytes. -/
def utf8Encode (s : String) : List Nat :=
  s.data.foldr (fun c acc => utf8EncodeChar c ++ acc) []

namespace Sha256

/-- Truncate to a 32-bit word. -/
def w32 (n : Nat) : Nat := n % 4294967296

/-- Right rotation of a 32-bit word by `n` bits. -/
def rotr (n x : Nat) : Nat := w32 ((x >>> n) ||| (x <<< (32 - n)))

def bigSigma0 (x : Nat) : Nat := rotr 2 x ^^^ rotr 13 x ^^^ rotr 22 x

def bigSigma1 (x : Nat) : Nat := rotr 6 x ^^^ rotr 11 x ^^^ rotr 25 x

def smallSigma0 (x : Nat) : Nat := rotr 7 x ^^^ rotr 18 x ^^^ (x >>> 3)

def smallSigma1 (x : Nat) : Nat := rotr 17 x ^^^ rotr 19 x ^^^ (x >>> 10)

def ch (x y z : Nat) : Nat := (x &&& y) ^^^ ((w32 x ^^^ 4294967295) &&& z)

def maj (x y z : Nat) : Nat := (x &&& y) ^^^ (x &&& z) ^^^ (y &&& z)

/-- The eight working variables of the compression function. -/
structure Regs where
  a : Nat
  b : Nat
  c : Nat
  d : Nat
  e : Nat
  f : Nat
  g : Nat
  h : Nat

/-- The eight hash words. -/
structure Hash8 where
  h0 : Nat
  h1 : Nat
  h2 : Nat
  h3 : Nat
  h4 : Nat
  h5 : Nat
  h6 : Nat
  h7 : Nat

/-- The eight initial hash values of FIPS 180-4, as decimal naturals. -/
def initHash : Hash8 :=
  ⟨1779033703, 3144134277, 1013904242, 2773480762,
   1359893119, 2600822924, 528734635, 1541459225⟩

/-- The 64 round constants of FIPS 180-4, as decimal naturals. -/
def kConstants : List Nat :=
  [1116352408, 1899447441, 3049323471, 3921009573,
   961987163, 1508970993, 2453635748, 2870763221,
   3624381080, 310598401, 607225278, 1426881987,
   1925078388, 2162078206, 2614888103, 3248222580,
   3835390401, 4022224774, 264347078, 604807628,
   770255983, 1249150122, 1555081692, 1996064986,
   2554220882, 2821834349, 2952996808, 3210313671,
   3336571891, 3584528711, 113926993, 338241895,
   666307205, 773529912, 1294757372, 1396182291,
   1695183700, 1986661051, 2177026350, 2456956037,
   2730485921, 2820302411, 3259730800, 3345764771,
   3516065817, 3600352804, 4094571909, 275423344,
   430227734, 506948616, 659060556, 883997877,
   958139571, 1322822218, 1537002063, 1747873779,
   1955562222, 2024104815, 2227730452, 2361852424,
   2428436474, 2756734187, 3204031479, 3329325298]

/-- Word `i` of a schedule list (0 when out of range). -/
def wAt (ws : List Nat) (i : Nat) : Nat := ws.getD i 0

/-- Extend the 16-word message schedule by `n` further words. -/
def extendSchedule : Nat → List Nat → List Nat
  | 0, ws => ws
  | n + 1, ws =>
      let i := ws.length
      let s0 := smallSigma0 (wAt ws (i - 15))
      let s1 := smallSigma1 (wAt ws (i - 2))
      extendSchedule n (ws ++ [w32 (wAt ws (i - 16) + s0 + wAt ws (i - 7) + s1)])

/-- One round of the compression function. -/
def roundStep (r : Regs) (k w : Nat) : Regs :=
  let t1 := w32 (r.h + bigSigma1 r.e + ch r.e r.f r.g + k + w)
  let t2 := w32 (bigSigma0 r.a + maj r.a r.b r.c)
  ⟨w32 (t1 + t2), r.a, r.b, r.c, w32 (r.d + t1), r.e, r.f, r.g⟩

/-- Compress one 16-word block into the hash state. -/
def compressBlock (hsh : Hash8) (block : List Nat) : Hash8 :=
  let ws := extendSchedule 48 block
  let r0 : Regs := ⟨hsh.h0, hsh.h1, hsh.h2, hsh.h3, hsh.h4, hsh.h5, hsh.h6, hsh.h7⟩
  let r := (List.zip kConstants ws).foldl (fun r kw => roundStep r kw.1 kw.2) r0
  ⟨w32 (hsh.h0 + r.a), w32 (hsh.h1 + r.b), w32 (hsh.h2 + r.c), w32 (hsh.h3 + r.d),
   w32 (hsh.h4 + r.e), w32 (hsh.h5 + r.f), w32 (hsh.h6 + r.g), w32 (hsh.h7 + r.h)⟩

/-- Big-endian bytes of a 64-bit length field. -/
def lengthBytes (n : Nat) : List Nat :=
  [n / 72057594037927936 % 256, n / 281474976710656 % 256, n / 1099511627776 % 256,
   n / 4294967296 % 256, n / 16777216 % 256, n / 65536 % 256, n / 256 % 256, n % 256]

/-- SHA-256 padding: append `0x80`, zeros to 56 mod 64, then the bit
length as eight big-endian bytes. -/
def padMessage (msg : List Nat) : List Nat :=
  let z := (119 - msg.length % 64) % 64
  msg ++ [128] ++ List.replicate z 0 ++ lengthBytes (msg.length * 8)

/-- Split a byte list into 64-byte blocks (`fuel` bounds the recursion;
each step consumes at least one byte, so `fuel = bs.length` suffices). -/
def splitBlocksAux : Nat → List Nat → List (List Nat)
  | 0, _ => []
  | _ + 1, [] => []
  | fuel + 1, b :: t => (b :: t).take 64 :: splitBlocksAux fuel ((b :: t).drop 64)

/-- Split a byte list into 64-byte blocks. -/
def splitBlocks (bs : List Nat) : List (List Nat) :=
  splitBlocksAux bs.length bs

/-- Group bytes into big-endian 32-bit words. -/
def toWordsBE : List Nat → List Nat
  | a :: b :: c :: d :: rest => (a * 16777216 + b * 65536 + c * 256 + d) :: toWordsBE rest
  | _ => []

/-- Big-endian bytes of one 32-bit word. -/
def wordBytesBE (w : Nat) : List Nat :=
  [w / 16777216 % 256, w / 65536 % 256, w / 256 % 256, w % 256]

/-- The 32 digest bytes of a hash state. -/
def digestBytes (hsh : Hash8) : List Nat :=
  wordBytesBE hsh.h0 ++ wordBytesBE hsh.h1 ++ wordBytesBE hsh.h2 ++ wordBytesBE hsh.h3 ++
  wordBytesBE hsh.h4 ++ wordBytesBE hsh.h5 ++ wordBytesBE hsh.h6 ++ wordBytesBE hsh.h7

/-- SHA-256 of a byte list, as 32 digest bytes. -/
def sha256 (msg : List Nat) : List Nat :=
  digestBytes ((splitBlocks (padMessage msg)).foldl (fun acc b => compressBlock acc (toWordsBE b)) initHash)

end Sha256

/-- Lowercase hexadecimal characters of a byte list, two per byte. -/
def toHexChars : List Nat → List Char
  | [] => []
  | b :: bs => Nat.digitChar (b / 16 % 16) :: Nat.digitChar (b % 16) :: toHexChars bs

/-- `createHash('sha256').update(utf8 bytes).digest('hex')`: the lowercase
hexadecimal SHA-256 digest of a byte list. -/
def sha256Hex (msg : List Nat) : String :=
  String.mk (toHexChars (Sha256.sha256 msg))

/-- JS `String.prototype.startsWith`: character-wise prefix test, as used
by `key.startsWith(prefix)` in `getKeys`. -/
def jsStartsWith (s p : String) : Bool := p.data.isPrefixOf s.data

/-- JS truthiness of an optional string: `undefined`/`null` and `""` are
falsy, every other string is truthy. -/
def jsTruthyStr : Option String → Bool
  | none => false
  | some s => s != ""

/-- Modelled from the spec: the external Keyv store as a list of entries
`(key, value, expiresAt)`; the spec's CacheEntry record. Entries whose
expiration has elapsed are treated as absent by `storeGet`. -/
abbrev Store := List (String × String × Nat)

/-- Modelled from the spec: the store's `set` — overwrites any existing
entry under `key` and stores `value` with expiration `now + ttl`. -/
def storeSet (s : Store) (key value : String) (now ttl : Nat) : Store :=
  (key, value, now + ttl) :: s.filter (fun e => e.1 != key)

/-- Modelled from the spec: the store's `get` — the stored value, or
`none` when the key is missing or its expiration has elapsed. -/
def storeGet (s : Store) (key : String) (now : Nat) : Option String :=
  match s.find? (fun e => e.1 == key) with
  | some e => if now ≤ e.2.2 then some e.2.1 else none
  | none => none

/-- Modelled from the spec: the store's `delete` — idempotent removal. -/
def storeDelete (s : Store) (key : String) : Store :=
  s.filter (fun e => e.1 != key)

/-- Modelled from the spec: the store's `deleteMany` — batched removal of
every entry whose key is in `keys`. -/
def storeDeleteMany (s : Store) (keys : List String) : Store :=
  s.filter (fun e => !(keys.contains e.1))

/-- Modelled from the spec: the store's `clear` — removes every entry. -/
def storeClear (_ : Store) : Store := []

/-- Modelled from the spec: the keys yielded by the store's iterator, in
store order. -/
def storeKeys (s : Store) : List String := s.map (fun e => e.1)

namespace RedisCacheService

/-- `get(key)`: delegates to the store client. -/
def get (s : Store) (now : Nat) (key : String) : Option String :=
  storeGet s key now

/-- The collection condition of `getKeys`:
`(prefix && key.startsWith(prefix)) || !prefix`. -/
def keepKey (pfx : Option String) (key : String) : Bool :=
  (jsTruthyStr pfx && jsStartsWith key (pfx.getD "")) || !jsTruthyStr pfx

/-- `getKeys(aPrefix?)`: walks the store's key iterator inside a
`try/catch`, pushing each matching key. `failAfter = some n` injects an
iterator failure after `n` yields; the `catch` swallows it so the keys
collected before the failure point are returned. -/
def getKeys (s : Store) (failAfter : Option Nat) (pfx : Option String) : List String :=
  (match failAfter with
   | none => storeKeys s
   | some n => (storeKeys s).take n).filter (keepKey pfx)

/-- Modelled from the spec: `getAssetProfileIdentifier({dataSource, symbol})`
from `@ghostfolio/common/helper` (not under `src/`) returns
`{dataSource}:{symbol}`. -/
def getAssetProfileIdentifier (dataSource symbol : String) : String :=
  dataSource ++ ":" ++ symbol

/-- `getPortfolioSnapshotKey({filters, userId})`: the base key
`portfolio-snapshot-{userId}`, suffixed with the hex SHA-256 of
`JSON.stringify(filters)` when `filters?.length > 0`. -/
def getPortfolioSnapshotKey (userId : String) (filters : Option (List Gf.Filter)) : String :=
  let portfolioSnapshotKey := "portfolio-snapshot-" ++ userId
  match filters with
  | some fs =>
      if 0 < fs.length then
        portfolioSnapshotKey ++ "-" ++ sha256Hex (utf8Encode (jsonStringifyFilters fs))
      else portfolioSnapshotKey
  | none => portfolioSnapshotKey

/-- `getQuoteKey({dataSource, symbol})`: `quote-` followed by the asset
profile identifier. -/
def getQuoteKey (dataSource symbol : String) : String :=
  "quote-" ++ getAssetProfileIdentifier dataSource symbol

/-- `remove(key)`: delegates to the client's `delete`. -/
def remove (s : Store) (key : String) : Store :=
  storeDelete s key

/-- `set(key, value, ttl?)`: delegates to the client's `set` with
`ttl ?? configurationService.get('CACHE_TTL')`; `cacheTtl` is the
configured `CACHE_TTL` and `now` the current time. -/
def set (cacheTtl : Nat) (s : Store) (now : Nat) (key value : String) (ttl : Option Nat) : Store :=
  storeSet s key value now (ttl.getD cacheTtl)

/-- `removePortfolioSnapshotsByUserId({userId})`: enumerates the keys with
the user's base snapshot key as prefix via `getKeys`, then issues one
`deleteMany` with the collected list. -/
def removePortfolioSnapshotsByUserId (s : Store) (failAfter : Option Nat) (userId : String) : Store :=
  let keys := getKeys s failAfter (some (getPortfolioSnapshotKey userId none))
  storeDeleteMany s keys

/-- `reset()`: delegates to the client's `clear`. -/
def reset (s : Store) : Store :=
  storeClear s

/-- Fault injection for one `isHealthy` run: whether the 2-second timer
settles first, whether the probe's `set`/`get` raise a connectivity
failure, a value the store returns instead of the stored one (mismatch
injection), and whether the cleanup `remove` raises. -/
structure HealthFaults where
  timerWins : Bool
  setFails : Bool
  getFails : Bool
  getOverride : Option String
  removeFails : Bool

/-- The sentinel key of the health check. -/
def healthCheckKey : String := "__health_check__"

/-- The value the probe's `get(testKey)` yields: the injected override
when present, otherwise the value read back from the store right after
the probe's `set` (written with `ms('1 second')` = 1000 as ttl). -/
def healthReadBack (cacheTtl : Nat) (f : HealthFaults) (s : Store) (now : Nat) : Option String :=
  match f.getOverride with
  | some v => some v
  | none => get (set cacheTtl s now healthCheckKey (toString now) (some 1000)) now healthCheckKey

/-- `isHealthy()`: races the set-then-get probe against the
`ms('2 seconds')` timer inside a `try/catch/finally`; the `catch` turns a
timeout, a connectivity failure or a value mismatch into `false`, and the
`finally` attempts `remove(testKey)`, swallowing its failure. When the
timer wins, the losing probe is not cancelled and its effects are
discarded. The returned pair is the boolean outcome and the store left
behind. -/
def isHealthy (cacheTtl : Nat) (f : HealthFaults) (s : Store) (now : Nat) : Bool × Store :=
  let testValue := toString now
  let raced : Bool × Store :=
    if f.timerWins then (false, s)
    else if f.setFails then (false, s)
    else
      let s1 := set cacheTtl s now healthCheckKey testValue (some 1000)
      if f.getFails then (false, s1)
      else if healthReadBack cacheTtl f s now = some testValue then (true, s1)
      else (false, s1)
  (raced.1, if f.removeFails then raced.2 else remove raced.2 healthCheckKey)

/-- One subsequent service call, tagged with the time at which it runs,
for stating how long a cached entry survives. -/
inductive CacheOp where
  | set (now : Nat) (key value : String) (ttl : Option Nat)
  | remove (key : String)
  | deleteMany (keys : List String)
  | reset

/-- Run one service call against the store. -/
def applyOp (cacheTtl : Nat) (s : Store) : CacheOp → Store
  | .set now key value ttl => set cacheTtl s now key value ttl
  | .remove key => remove s key
  | .deleteMany keys => storeDeleteMany s keys
  | .reset => reset s

/-- Run a list of service calls in order. -/
def applyOps (cacheTtl : Nat) (s : Store) (ops : List CacheOp) : Store :=
  ops.foldl (applyOp cacheTtl) s

/-- Whether a service call deletes or overwrites the entry under `key`. -/
def opTouches (key : String) : CacheOp → Bool
  | .set _ k _ _ => k == key
  | .remove k => k == key
  | .deleteMany ks => ks.contains key
  | .reset => true

end RedisCacheService

/-- The first concrete example filter (`type ACCOUNT`, id `1`). -/
def filterA : Gf.Filter := ⟨some "1", "ACCOUNT"⟩

/-- The second concrete example filter (`type TAG`, id `2`). -/
def filterB : Gf.Filter := ⟨some "2", "TAG"⟩

/-- The store of the spec's namespace-invalidation example: the keys
`portfolio-snapshot-u1`, `portfolio-snapshot-u1-abc` and
`portfolio-snapshot-u2` written through the service's `set`. -/
def exampleStore : Store :=
  RedisCacheService.set 10
    (RedisCacheService.set 10
      (RedisCacheService.set 10 [] 0 "portfolio-snapshot-u1" "a" none)
      0 "portfolio-snapshot-u1-abc" "b" none)
    0 "portfolio-snapshot-u2" "c" none

/-- A store holding another user's snapshot key `portfolio-snapshot-u10`,
whose userId `u10` has `u1` as a proper string prefix. -/
def exampleStoreU10 : Store :=
  RedisCacheService.set 10
    (RedisCacheService.set 10 [] 0 "portfolio-snapshot-u10" "a" none)
    0 "portfolio-snapshot-u1" "b" none

namespace RedisCacheService

theorem find?_filter_of_imp (l : List α) (p q : α → Bool)
    (h : ∀ e, p e = true → q e = true) : (l.filter q).find? p = l.find? p := by
  induction l with
  | nil => rfl
  | cons e t ih =>
    cases hq : q e with
    | true =>
      rw [List.filter_cons_of_pos hq]
      cases hp : p e with
      | true => rw [List.find?_cons_of_pos _ hp, List.find?_cons_of_pos _ hp]
      | false =>
        rw [List.find?_cons_of_neg _ (by simp [hp]), List.find?_cons_of_neg _ (by simp [hp]), ih]
    | false =>
      have hp : p e = false := by
        cases hpe : p e with
        | true => rw [h e hpe] at hq; cases hq
        | false => rfl
      rw [List.filter_cons_of_neg (by simp [hq]), List.find?_cons_of_neg _ (by simp [hp]), ih]

theorem storeGet_storeSet_self (s : Store) (key value : String) (now ttl t : Nat) :
    storeGet (storeSet s key value now ttl) key t =
      if t ≤ now + ttl then some value else none := by
  simp [storeGet, storeSet, List.find?_cons_of_pos]

theorem storeGet_applyOp_of_not_touches (cacheTtl : Nat) (s : Store) (op : CacheOp)
    (key : String) (t : Nat) (h : opTouches key op = false) :
    storeGet (applyOp cacheTtl s op) key t = storeGet s key t := by
  cases op with
  | set now2 k v ttl =>
    have hne : k ≠ key := by simpa [opTouches] using h
    have hfind : (s.filter (fun e => e.1 != k)).find? (fun e => e.1 == key) =
        s.find? (fun e => e.1 == key) := by
      apply find?_filter_of_imp
      intro e he
      have h1 : e.1 = key := by simpa using he
      simp [h1]
      exact fun hh => hne hh.symm
    simp only [applyOp, set, storeSet, storeGet]
    rw [List.find?_cons_of_neg _ (by simpa using hne), hfind]
  | remove k =>
    have hne : k ≠ key := by simpa [opTouches] using h
    have hfind : (s.filter (fun e => e.1 != k)).find? (fun e => e.1 == key) =
        s.find? (fun e => e.1 == key) := by
      apply find?_filter_of_imp
      intro e he
      have h1 : e.1 = key := by simpa using he
      simp [h1]
      exact fun hh => hne hh.symm
    simp only [applyOp, remove, storeDelete, storeGet]
    rw [hfind]
  | deleteMany ks =>
    have hc : ks.contains key = false := by simpa [opTouches] using h
    have hfind : (s.filter (fun e => !ks.contains e.1)).find? (fun e => e.1 == key) =
        s.find? (fun e => e.1 == key) := by
      apply find?_filter_of_imp
      intro e he
      have h1 : e.1 = key := by simpa using he
      have h2 : key ∉ ks := by simpa using hc
      simp [h1, h2]
    simp only [applyOp, storeDeleteMany, storeGet]
    rw [hfind]
  | reset => simp [opTouches] at h

theorem storeGet_applyOps_of_not_touches (cacheTtl : Nat) (ops : List CacheOp) (s : Store)
    (key : String) (t : Nat) (h : ∀ op ∈ ops, opTouches key op = false) :
    storeGet (applyOps cacheTtl s ops) key t = storeGet s key t := by
  induction ops generalizing s with
  | nil => rfl
  | cons op rest ih =>
    rw [show applyOps cacheTtl s (op :: rest) = applyOps cacheTtl (applyOp cacheTtl s op) rest from rfl]
    rw [ih (applyOp cacheTtl s op) (fun o ho => h o (List.mem_cons_of_mem _ ho))]
    exact storeGet_applyOp_of_not_touches cacheTtl s op key t (h op (List.mem_cons_self _ _))

theorem snapshotBase_ne_empty (u : String) : getPortfolioSnapshotKey u none ≠ "" := by
  intro hEq
  have hd : ("portfolio-snapshot-" ++ u).data = "".data := by
    rw [show ("portfolio-snapshot-" ++ u) = getPortfolioSnapshotKey u none from rfl, hEq]
  simp only [String.data_append] at hd
  have h1 : "portfolio-snapshot-".data = [] := (List.append_eq_nil.mp hd).1
  exact absurd h1 (by decide)

theorem keepKey_some_of_ne_empty (p k : String) (hp : p ≠ "") :
    keepKey (some p) k = jsStartsWith k p := by
  have : (p != "") = true := by simpa using hp
  simp [keepKey, jsTruthyStr, this]

theorem mem_storeKeys_storeDeleteMany (s : Store) (keys : List String) (k : String) :
    k ∈ storeKeys (storeDeleteMany s keys) ↔ (k ∈ storeKeys s ∧ k ∉ keys) := by
  simp only [storeKeys, storeDeleteMany, List.mem_map, List.mem_filter]
  constructor
  · rintro ⟨e, ⟨hes, hc⟩, rfl⟩
    exact ⟨⟨e, hes, rfl⟩, by simpa using hc⟩
  · rintro ⟨⟨e, hes, rfl⟩, hk⟩
    exact ⟨e, ⟨hes, by simpa using hk⟩, rfl⟩

theorem mem_getKeys_snapshotBase (s : Store) (u k : String) :
    k ∈ getKeys s none (some (getPortfolioSnapshotKey u none)) ↔
      (k ∈ storeKeys s ∧ jsStartsWith k (getPortfolioSnapshotKey u none) = true) := by
  simp [getKeys, List.mem_filter,
    keepKey_some_of_ne_empty _ _ (snapshotBase_ne_empty u)]

theorem mem_storeKeys_removeSnapshots (s : Store) (u k : String) :
    k ∈ storeKeys (removePortfolioSnapshotsByUserId s none u) ↔
      (k ∈ storeKeys s ∧ jsStartsWith k (getPortfolioSnapshotKey u none) = false) := by
  rw [show removePortfolioSnapshotsByUserId s none u =
      storeDeleteMany s (getKeys s none (some (getPortfolioSnapshotKey u none))) from rfl]
  rw [mem_storeKeys_storeDeleteMany]
  constructor
  · rintro ⟨h1, h2⟩
    refine ⟨h1, ?_⟩
    cases hsw : jsStartsWith k (getPortfolioSnapshotKey u none) with
    | false => rfl
    | true => exact absurd ((mem_getKeys_snapshotBase s u k).mpr ⟨h1, hsw⟩) h2
  · rintro ⟨h1, h2⟩
    refine ⟨h1, fun hmem => ?_⟩
    have := ((mem_getKeys_snapshotBase s u k).mp hmem).2
    rw [h2] at this
    cases this

theorem snapshotKey_startsWith (u t : String) (filters : Option (List Gf.Filter)) :
    jsStartsWith (getPortfolioSnapshotKey (u ++ t) filters)
      (getPortfolioSnapshotKey u none) = true := by
  have hpre : ∀ rest : List Char,
      ("portfolio-snapshot-".data ++ u.data) <+:
        ("portfolio-snapshot-".data ++ (u.data ++ rest)) := by
    intro rest
    rw [← List.append_assoc]
    exact List.prefix_append _ _
  cases filters with
  | none =>
    simp only [jsStartsWith, getPortfolioSnapshotKey, String.data_append,
      List.isPrefixOf_iff_prefix]
    exact hpre t.data
  | some fs =>
    by_cases hfs : 0 < fs.length
    · simp only [jsStartsWith, getPortfolioSnapshotKey, hfs, if_pos, String.data_append,
        List.isPrefixOf_iff_prefix, List.append_assoc]
      exact hpre _
    · simp only [jsStartsWith, getPortfolioSnapshotKey, hfs, if_neg, String.data_append,
        List.isPrefixOf_iff_prefix]
      exact hpre t.data

theorem not_mem_storeKeys_storeDelete (s : Store) (key : String) :
    key ∉ storeKeys (storeDelete s key) := by
  simp only [storeKeys, storeDelete, List.mem_map, List.mem_filter]
  rintro ⟨e, ⟨_, hne⟩, hek⟩
  rw [hek] at hne
  simp at hne

end RedisCacheService

open RedisCacheService

/-- C3: every key returned by `getKeys(prefix)` starts with that prefix,
and under an iterator failure after `n` yields `getKeys` does not raise
but returns exactly the matching keys collected before the failure point
— the same (possibly empty) list a complete run over the first `n`
yielded entries produces. -/
theorem getKeys_prefix_containment_and_truncation :
    (∀ (s : Store) (failAfter : Option Nat) (p k : String),
      k ∈ getKeys s failAfter (some p) → jsStartsWith k p = true) ∧
    (∀ (s : Store) (n : Nat) (pfx : Option String),
      getKeys s (some n) pfx = getKeys (s.take n) none pfx) ∧
    (∀ (s : Store) (pfx : Option String), getKeys s (some 0) pfx = []) := by
  refine ⟨?_, ?_, ?_⟩
  · intro s failAfter p k hk
    simp only [getKeys] at hk
    have hkeep : keepKey (some p) k = true := (List.mem_filter.mp hk).2
    by_cases hp : p = ""
    · subst hp
      have hnil : ("" : String).data = [] := by decide
      simp [jsStartsWith, hnil, List.isPrefixOf_iff_prefix, List.nil_prefix]
    · rwa [keepKey_some_of_ne_empty _ _ hp] at hkeep
  · intro s n pfx
    simp [getKeys, storeKeys, List.map_take]
  · intro s pfx
    rfl

/-- C3 witness: a concrete run of `getKeys` with the prefix
`portfolio-snapshot-u1` over the example store. -/
theorem getKeys_prefix_containment_witness :
    "portfolio-snapshot-u1" ∈
        getKeys exampleStore none (some "portfolio-snapshot-u1") ∧
    jsStartsWith "portfolio-snapshot-u1" "portfolio-snapshot-u1" = true :=
  ⟨by decide, getKeys_prefix_containment_and_truncation.1 exampleStore none
    "portfolio-snapshot-u1" "portfolio-snapshot-u1" (by decide)⟩

/-- C4: `getQuoteKey` returns exactly `quote-{dataSource}:{symbol}`, on
the spec's concrete example as well, and is deterministic. -/
theorem getQuoteKey_format (dataSource symbol : String) :
    getQuoteKey dataSource symbol = "quote-" ++ dataSource ++ ":" ++ symbol ∧
    getQuoteKey "YAHOO" "AAPL" = "quote-YAHOO:AAPL" ∧
    getQuoteKey dataSource symbol = getQuoteKey dataSource symbol := by
  refine ⟨?_, by decide, rfl⟩
  simp [getQuoteKey, getAssetProfileIdentifier, String.append_assoc]

/-- C5: `removePortfolioSnapshotsByUserId(userId)` issues one `deleteMany`
with exactly the keys `getKeys` enumerates under the user's base snapshot
key; afterwards a key is present iff it was present and does not start
with that base key; on the spec's example only `portfolio-snapshot-u2`
survives. -/
theorem removePortfolioSnapshots_exact (s : Store) (u k : String) :
    (k ∈ storeKeys (removePortfolioSnapshotsByUserId s none u) ↔
      (k ∈ storeKeys s ∧ jsStartsWith k (getPortfolioSnapshotKey u none) = false)) ∧
    removePortfolioSnapshotsByUserId s none u =
      storeDeleteMany s (getKeys s none (some (getPortfolioSnapshotKey u none))) ∧
    storeKeys (removePortfolioSnapshotsByUserId exampleStore none "u1") =
      ["portfolio-snapshot-u2"] :=
  ⟨mem_storeKeys_removeSnapshots s u k, rfl, by decide⟩

/-- C7: `set` without a ttl stores with the configured `CACHE_TTL`; with
an explicit ttl it stores with that ttl instead. -/
theorem set_default_ttl (cacheTtl : Nat) (s : Store) (now : Nat) (key value : String) :
    set cacheTtl s now key value none = storeSet s key value now cacheTtl ∧
    (∀ ttl : Nat, set cacheTtl s now key value (some ttl) = storeSet s key value now ttl) :=
  ⟨rfl, fun _ => rfl⟩

/-- C9: because matching is by plain string prefix on the base key,
removing user `u`'s snapshots also deletes every snapshot key of a user
whose id extends `u`; concretely, removing for `u1` deletes
`portfolio-snapshot-u10`. -/
theorem removePortfolioSnapshots_proper_prefix_users (s : Store) (u t : String)
    (filters : Option (List Gf.Filter))
    (hmem : getPortfolioSnapshotKey (u ++ t) filters ∈ storeKeys s) :
    getPortfolioSnapshotKey (u ++ t) filters ∉
        storeKeys (removePortfolioSnapshotsByUserId s none u) ∧
    "portfolio-snapshot-u10" ∉
        storeKeys (removePortfolioSnapshotsByUserId exampleStoreU10 none "u1") := by
  refine ⟨?_, by decide⟩
  intro hin
  have h2 := ((mem_storeKeys_removeSnapshots s u _).mp hin).2
  have h3 := snapshotKey_startsWith u t filters
  rw [h2] at h3
  cases h3

/-- C9 witness: `portfolio-snapshot-u10` is in the example store and is
gone after removing the snapshots of user `u1`. -/
theorem removePortfolioSnapshots_proper_prefix_witness :
    getPortfolioSnapshotKey ("u1" ++ "0") none ∈ storeKeys exampleStoreU10 ∧
    (getPortfolioSnapshotKey ("u1" ++ "0") none ∉
        storeKeys (removePortfolioSnapshotsByUserId exampleStoreU10 none "u1") ∧
      "portfolio-snapshot-u10" ∉
        storeKeys (removePortfolioSnapshotsByUserId exampleStoreU10 none "u1")) :=
  ⟨by decide, removePortfolioSnapshots_proper_prefix_users exampleStoreU10 "u1" "0" none
    (by decide)⟩

/-- C10: the default ttl is injected by nullish coalescing, so an
explicit ttl of 0 passes 0 to the store, not the configured default —
and, when the default is nonzero, produces a different store state than
omitting the ttl. -/
theorem set_explicit_zero_ttl (cacheTtl : Nat) (s : Store) (now : Nat) (key value : String)
    (h : cacheTtl ≠ 0) :
    set cacheTtl s now key value (some 0) = storeSet s key value now 0 ∧
    set cacheTtl s now key value none = storeSet s key value now cacheTtl ∧
    set cacheTtl s now key value (some 0) ≠ set cacheTtl s now key value none := by
  refine ⟨rfl, rfl, ?_⟩
  intro hEq
  have hexp : now + 0 = now + cacheTtl :=
    congrArg (fun l : Store => match l with | (_, _, e) :: _ => e | [] => 0) hEq
  omega

/-- C10 witness: with `CACHE_TTL = 5`, an explicit ttl of 0 is passed
through and differs from the omitted-ttl store state. -/
theorem set_explicit_zero_ttl_witness :
    (5 : Nat) ≠ 0 ∧
    (set 5 [] 0 "k" "v" (some 0) = storeSet [] "k" "v" 0 0 ∧
      set 5 [] 0 "k" "v" none = storeSet [] "k" "v" 0 5 ∧
      set 5 [] 0 "k" "v" (some 0) ≠ set 5 [] 0 "k" "v" none) :=
  ⟨by decide, set_explicit_zero_ttl 5 [] 0 "k" "v" (by decide)⟩

/-- C2: `isHealthy` returns a boolean, never raising: `true` exactly when
the timer does not win the race, the probe's `set` and `get` raise no
connectivity failure, and the value read back equals the written value;
any mismatch, connectivity failure or timeout yields `false`. -/
theorem isHealthy_boolean_outcome (cacheTtl : Nat) (f : HealthFaults) (s : Store) (now : Nat) :
    (isHealthy cacheTtl f s now).1 = true ↔
      (f.timerWins = false ∧ f.setFails = false ∧ f.getFails = false ∧
        healthReadBack cacheTtl f s now = some (toString now)) := by
  obtain ⟨tw, sf, gf, go, rf⟩ := f
  cases tw <;> cases sf <;> cases gf <;> simp [isHealthy] <;> split <;> simp_all

/-- C6: whatever the probe outcome, `isHealthy` attempts to delete the
sentinel key afterward: a failing cleanup never changes the returned
boolean, and when the cleanup delete succeeds the sentinel key is absent
from the resulting store. -/
theorem isHealthy_sentinel_cleanup (cacheTtl : Nat) (f : HealthFaults) (s : Store) (now : Nat)
    (b : Bool) (hr : f.removeFails = false) :
    (isHealthy cacheTtl ⟨f.timerWins, f.setFails, f.getFails, f.getOverride, b⟩ s now).1 =
        (isHealthy cacheTtl f s now).1 ∧
    healthCheckKey ∉ storeKeys (isHealthy cacheTtl f s now).2 := by
  obtain ⟨tw, sf, gf, go, rf⟩ := f
  simp only at hr
  subst hr
  constructor
  · cases tw <;> cases sf <;> cases gf <;> simp [isHealthy, healthReadBack]
  · simp only [isHealthy]
    simp only [Bool.false_eq_true, if_false]
    exact not_mem_storeKeys_storeDelete _ _

/-- C6 witness: a fault-free health check against the empty store leaves
the sentinel key absent, and an injected cleanup failure does not change
the returned boolean. -/
theorem isHealthy_sentinel_cleanup_witness :
    (false = false) ∧
    ((isHealthy 1 ⟨false, false, false, none, true⟩ [] 0).1 =
        (isHealthy 1 ⟨false, false, false, none, false⟩ [] 0).1 ∧
      healthCheckKey ∉ storeKeys (isHealthy 1 ⟨false, false, false, none, false⟩ [] 0).2) :=
  ⟨rfl, isHealthy_sentinel_cleanup 1 ⟨false, false, false, none, false⟩ [] 0 true rfl⟩

/-- C8: a `set(k, v)` followed immediately by `get(k)` returns exactly
`v`, and still does after any further operations that neither delete nor
overwrite `k`, as long as the read happens before `k`'s ttl has elapsed. -/
theorem set_get_roundtrip (cacheTtl : Nat) (s : Store) (now : Nat) (key value : String)
    (ttl : Option Nat) (ops : List CacheOp) (t : Nat)
    (hops : ∀ op ∈ ops, opTouches key op = false)
    (ht : t ≤ now + ttl.getD cacheTtl) :
    get (set cacheTtl s now key value ttl) now key = some value ∧
    get (applyOps cacheTtl (set cacheTtl s now key value ttl) ops) t key = some value := by
  constructor
  · show storeGet (storeSet s key value now (ttl.getD cacheTtl)) key now = some value
    rw [storeGet_storeSet_self]
    simp
  · show storeGet (applyOps cacheTtl (set cacheTtl s now key value ttl) ops) key t = some value
    rw [storeGet_applyOps_of_not_touches cacheTtl ops _ key t hops]
    show storeGet (storeSet s key value now (ttl.getD cacheTtl)) key t = some value
    rw [storeGet_storeSet_self]
    simp [ht]

/-- C8 witness: a concrete round trip surviving an unrelated later `set`. -/
theorem set_get_roundtrip_witness :
    (∀ op ∈ [CacheOp.set 1 "other" "w" none], opTouches "k" op = false) ∧
    (5 ≤ 0 + (none : Option Nat).getD 10) ∧
    (get (set 10 [] 0 "k" "v" none) 0 "k" = some "v" ∧
      get (applyOps 10 (set 10 [] 0 "k" "v" none) [CacheOp.set 1 "other" "w" none]) 5 "k" =
        some "v") :=
  ⟨by decide, by decide,
    set_get_roundtrip 10 [] 0 "k" "v" none [CacheOp.set 1 "other" "w" none] 5
      (by decide) (by decide)⟩

theorem digitChar_mem_hex (n : Nat) (h : n < 16) :
    Nat.digitChar n ∈ ("0123456789abcdef").data := by
  interval_cases n <;> decide

theorem length_toHexChars (bs : List Nat) : (toHexChars bs).length = 2 * bs.length := by
  induction bs with
  | nil => rfl
  | cons b t ih =>
    simp only [toHexChars, List.length_cons, ih]
    omega

theorem mem_toHexChars (bs : List Nat) (c : Char) (hc : c ∈ toHexChars bs) :
    c ∈ ("0123456789abcdef").data := by
  induction bs with
  | nil => simp [toHexChars] at hc
  | cons b t ih =>
    simp only [toHexChars, List.mem_cons] at hc
    rcases hc with h | h | h
    · rw [h]
      exact digitChar_mem_hex _ (Nat.mod_lt _ (by decide))
    · rw [h]
      exact digitChar_mem_hex _ (Nat.mod_lt _ (by decide))
    · exact ih h

theorem length_sha256 (msg : List Nat) : (Sha256.sha256 msg).length = 32 := by
  simp [Sha256.sha256, Sha256.digestBytes, Sha256.wordBytesBE]

theorem length_sha256Hex (msg : List Nat) : (sha256Hex msg).length = 64 := by
  show (toHexChars (Sha256.sha256 msg)).length = 64
  rw [length_toHexChars, length_sha256]

theorem mem_sha256Hex (msg : List Nat) (c : Char) (hc : c ∈ (sha256Hex msg).data) :
    c ∈ ("0123456789abcdef").data :=
  mem_toHexChars _ c hc

set_option maxRecDepth 100000 in
set_option maxHeartbeats 1000000 in
/-- C1: `getPortfolioSnapshotKey` returns exactly
`portfolio-snapshot-{userId}` when filters is omitted (`none`, the JS
`undefined`/`null`) or an empty list; with a non-empty filter list it
returns `portfolio-snapshot-{userId}-{h}` where `h` is the 64-character
lowercase-hexadecimal SHA-256 digest of the filter list's serialization
in the order supplied; identical inputs yield the identical key, and the
example filters supplied in the opposite order yield a different key. -/
theorem getPortfolioSnapshotKey_format (userId : String) (fs : List Gf.Filter)
    (h : fs ≠ []) :
    getPortfolioSnapshotKey userId none = "portfolio-snapshot-" ++ userId ∧
    getPortfolioSnapshotKey userId (some []) = "portfolio-snapshot-" ++ userId ∧
    getPortfolioSnapshotKey userId (some fs) =
      "portfolio-snapshot-" ++ userId ++ "-" ++
        sha256Hex (utf8Encode (jsonStringifyFilters fs)) ∧
    (sha256Hex (utf8Encode (jsonStringifyFilters fs))).length = 64 ∧
    (∀ c ∈ (sha256Hex (utf8Encode (jsonStringifyFilters fs))).data,
      c ∈ ("0123456789abcdef").data) ∧
    getPortfolioSnapshotKey userId (some fs) = getPortfolioSnapshotKey userId (some fs) ∧
    getPortfolioSnapshotKey "u1" (some [filterA, filterB]) ≠
      getPortfolioSnapshotKey "u1" (some [filterB, filterA]) := by
  have hlen : 0 < fs.length := List.length_pos.mpr h
  refine ⟨rfl, rfl, ?_, length_sha256Hex _, fun c hc => mem_sha256Hex _ c hc, rfl, ?_⟩
  · simp [getPortfolioSnapshotKey, hlen]
  · decide

set_option maxRecDepth 100000 in
set_option maxHeartbeats 1000000 in
/-- C1 witness: the key format at the concrete user `u9` with the
concrete filter list `[filterA]`. -/
theorem getPortfolioSnapshotKey_format_witness :
    ([filterA] ≠ ([] : List Gf.Filter)) ∧
    (getPortfolioSnapshotKey "u9" none = "portfolio-snapshot-" ++ "u9" ∧
      getPortfolioSnapshotKey "u9" (some []) = "portfolio-snapshot-" ++ "u9" ∧
      getPortfolioSnapshotKey "u9" (some [filterA]) =
        "portfolio-snapshot-" ++ "u9" ++ "-" ++
          sha256Hex (utf8Encode (jsonStringifyFilters [filterA])) ∧
      (sha256Hex (utf8Encode (jsonStringifyFilters [filterA]))).length = 64 ∧
      (∀ c ∈ (sha256Hex (utf8Encode (jsonStringifyFilters [filterA]))).data,
        c ∈ ("0123456789abcdef").data) ∧
      getPortfolioSnapshotKey "u9" (some [filterA]) =
        getPortfolioSnapshotKey "u9" (some [filterA]) ∧
      getPortfolioSnapshotKey "u1" (some [filterA, filterB]) ≠
        getPortfolioSnapshotKey "u1" (some [filterB, filterA])) :=
  ⟨by decide, getPortfolioSnapshotKey_format "u9" [filterA] (by decide)⟩
